import Mathlib

/-!
Shallow embedding of the German-string value type from
`src/include/german_string.h` and `src/unnamed/part_001`
(namespace `gs`, struct `detail::_gs_impl_no_alloc` and the
allocator-aware wrapper `basic_german_string<TAllocator>::_gs_impl`).

Modelling conventions:
  - A value is modelled by the byte payload it represents (`content`,
    a list of byte values) together with the 2-bit class tag stored in
    the top bits of `_state[1]` (`tag`).  The stored 32-bit size field
    always equals `content.length` for values the code can construct,
    so `_get_size` is derived; validity (`GS.Valid`) records the
    representability constraints (size fits in 32 bits, bytes < 256).
  - The raw machine words `_state[0]` and (for inline values)
    `_state[1]` are recovered by `_state0` / `_state1_inline` from the
    payload, following the constructor: the default constructor zeroes
    both words, `_state[0] = size` writes the size into the low 4 bytes
    (leaving the 4 prefix bytes zero), and `memcpy` then writes the
    payload (inline mode) or exactly 4 prefix bytes (large mode).
    Hence unused inline bytes and unused prefix bytes are zero.
  - Machine integers are Nat with explicit `% 2^32` where 32-bit
    wraparound matters; the `int` results of `memcmp` and `_compare`
    are `Int`, with the C++ unsigned-to-int conversion made explicit
    by `toInt32`.
  - Allocator effects are counted: construction returns the number of
    calls to `allocate`, destruction returns the number of calls to
    `deallocate`.
-/

namespace gs

/-- The three ownership classes, as the numeric values of the C++
`enum class string_class : uint8_t`. -/
def string_class.temporary : Nat := 0

/-- `string_class::persistent = 1`. -/
def string_class.persistent : Nat := 1

/-- `string_class::transient = 2`. -/
def string_class.transient : Nat := 2

/-- `SMALL_STRING_SIZE` from the header. -/
def SMALL_STRING_SIZE : Nat := 12

/-- Little-endian value of a byte list (each entry one byte). -/
def leBytes : List Nat → Nat
  | [] => 0
  | b :: bs => b + 256 * leBytes bs

/-- Model of C `memcmp(p, q, n)` on byte lists: 0 if the first `n`
bytes agree, otherwise the difference of the first differing pair of
bytes (read as unsigned values, as `memcmp` specifies).  All calls in
the embedded code stay within both buffers; a list running out is
mapped to 0 (that case is never reached). -/
def memcmp (l1 l2 : List Nat) : Nat → Int
  | 0 => 0
  | n + 1 =>
    match l1, l2 with
    | x :: xs, y :: ys => if x = y then memcmp xs ys n else (x : Int) - (y : Int)
    | _, _ => 0

/-- C++ conversion of a `uint32_t` value to (32-bit, two's complement)
`int`, as performed when `_compare` returns the unsigned difference of
the two size fields. -/
def toInt32 (n : Nat) : Int :=
  if n % 2 ^ 32 < 2 ^ 31 then (n % 2 ^ 32 : Nat) else (n % 2 ^ 32 : Nat) - 2 ^ 32

/-- 32-bit unsigned subtraction `a - b` (the type of
`_get_size() - other._get_size()` in C++ is `uint32_t`). -/
def sub_u32 (a b : Nat) : Nat := (a + 2 ^ 32 - b) % 2 ^ 32

/-- A German-string value: the represented payload bytes plus the
2-bit class tag kept in the top bits of `_state[1]`.  For inline
values (`size ≤ 12`) the code stores no tag — the field is unused
there and every class observation is guarded by `_is_small`. -/
structure GS where
  content : List Nat
  tag : Nat
deriving DecidableEq

namespace GS

/-- `_get_size`: the stored `uint32_t` size field; for constructible
values it equals the payload length. -/
def _get_size (g : GS) : Nat := g.content.length

/-- `_is_small`: `_get_size() <= SMALL_STRING_SIZE`. -/
def _is_small (g : GS) : Bool := decide (g._get_size ≤ SMALL_STRING_SIZE)

/-- The 4 bytes at offsets 4..8 of the record (the cached prefix for
large values, the first 4 inline bytes for small values): the first
min(size,4) payload bytes, zero-padded to 4 bytes. -/
def prefixBytes (g : GS) : List Nat := (g.content ++ List.replicate 4 0).take 4

/-- `_get_prefix`: the `uint32_t` load of the 4 bytes at offsets 4..8
(little-endian). -/
def _get_prefix_u32 (g : GS) : Nat := leBytes (prefixBytes g)

/-- The raw 64-bit word `_state[0]`: size in the low 4 bytes, the
prefix bytes in the high 4 bytes. -/
def _state0 (g : GS) : Nat := g._get_size + 2 ^ 32 * g._get_prefix_u32

/-- The raw 64-bit word `_state[1]` of an inline value: payload bytes
4..12, zero-padded to 8 bytes (the constructor zeroes the whole record
before `memcpy`ing the payload). -/
def _state1_inline (g : GS) : Nat :=
  leBytes ((g.content.drop 4 ++ List.replicate 8 0).take 8)

/-- `_get_class`: inline values always report `persistent`; otherwise
the 2-bit tag of `_state[1]`. -/
def _get_class (g : GS) : Nat :=
  if g._is_small then string_class.persistent else g.tag

/-- `_make_transient`: `_state[1] |= _get_ptr_tag(transient)`, i.e. OR
the tag bits with `0b10`. -/
def _make_transient (g : GS) : GS := ⟨g.content, g.tag ||| 2⟩

/-- `empty()`: `_get_size() == 0`. -/
def empty (g : GS) : Bool := g._get_size == 0

/-- `_equals` from `src/unnamed/part_001`: compare `_state[0]` raw
(size and prefix together); if equal and small, compare `_state[1]`
raw; otherwise `memcmp` the two payloads over `size` bytes.  When the
small branch is taken the other value is small as well (the sizes
already agreed), so its `_state[1]` is also the inline word. -/
def _equals (a b : GS) : Bool :=
  if a._state0 ≠ b._state0 then false
  else if a._is_small then a._state1_inline == b._state1_inline
  else memcmp a.content b.content a._get_size == 0

/-- `_compare` from `src/unnamed/part_001`.  The two `memcmp` calls
read, respectively, the prefix fields (at most 4 bytes) and the
payloads from offset 4; the final tie-break is the unsigned 32-bit
difference of the size fields converted to `int`. -/
def _compare (a b : GS) : Int :=
  let min_size := min a._get_size b._get_size
  let min_or_prefix_size := min min_size 4
  let prefix_cmp := memcmp a.prefixBytes b.prefixBytes min_or_prefix_size
  if min_or_prefix_size = min_size ∨ prefix_cmp ≠ 0 then
    if prefix_cmp ≠ 0 then prefix_cmp else toInt32 (sub_u32 a._get_size b._get_size)
  else
    let result := memcmp (a.content.drop 4) (b.content.drop 4) (min_size - 4)
    if result ≠ 0 then result else toInt32 (sub_u32 a._get_size b._get_size)

end GS

/-- The `_gs_impl(str, size, cls, allocator)` constructor: returns the
constructed value and the number of allocator calls.  Small payloads
are `memcpy`ed over the zero-initialised 12-byte inline region and the
value is read back as the first `size` bytes of that region; large
payloads are stored out of line, with one allocation (and a copy) if
and only if the requested class is `temporary`. -/
def _gs_impl_mk (s : List Nat) (cls : Nat) : GS × Nat :=
  if s.length ≤ SMALL_STRING_SIZE then
    (⟨(s ++ List.replicate (SMALL_STRING_SIZE - s.length) 0).take s.length, cls⟩, 0)
  else if cls = string_class.temporary then
    (⟨s, cls⟩, 1)
  else
    (⟨s, cls⟩, 0)

/-- The `~_gs_impl()` destructor: returns the number of `deallocate`
calls — 1 exactly when the value is large and its tag bits equal the
`temporary` tag, 0 otherwise. -/
def _gs_impl_dtor (g : GS) : Nat :=
  if g._is_small then 0
  else if g.tag = string_class.temporary then 1 else 0

/-- `_substr(start, length, cls)`: the bounds check computes
`start + length` in 32-bit unsigned arithmetic (both operands are
`size_type = uint32_t`) and throws `std::out_of_range` (modelled as
`none`) when the wrapped sum exceeds the stored size; otherwise it
constructs a new value from the `length` bytes at offset `start`. -/
def _substr (g : GS) (start length cls : Nat) : Option (GS × Nat) :=
  if (start + length) % 2 ^ 32 > g._get_size then none
  else some (_gs_impl_mk ((g.content.drop start).take length) cls)

/-- `_gs_impl::_starts_with`: reject when the two 4-byte prefix fields
differ (as whole `uint32_t` loads) or the receiver is shorter;
otherwise compare the leading substring (built by `_substr(0, b.size)`,
which cannot fail here since `b.size ≤ a.size`; the unreachable failure
branch is mapped to `false`) against `b`. -/
def _starts_with (a b : GS) : Bool :=
  if a._get_prefix_u32 ≠ b._get_prefix_u32 ∨ a._get_size < b._get_size then false
  else
    match _substr a 0 b._get_size string_class.transient with
    | some (sub, _) => sub._compare b == 0
    | none => false

/-- The move constructor `basic_german_string(basic_german_string&&)`:
the destination takes a bitwise copy of the source's 16-byte record;
if the source reported class `temporary` it is then retagged via
`_make_transient`.  Returns `(destination, source after the move)`. -/
def move_ctor (other : GS) : GS × GS :=
  if other._get_class = string_class.temporary then
    (other, other._make_transient)
  else
    (other, other)

/-- The move assignment `operator=(basic_german_string&&)` for two
distinct objects: the destination's old record is destroyed (counting
its deallocations), the source's record is copied over, and the
source's two state words are zeroed.  Returns
`(new destination, new source, deallocations of the old destination)`. -/
def move_assign (dst src : GS) : GS × GS × Nat :=
  (src, ⟨[], 0⟩, _gs_impl_dtor dst)

/-- `detail::_checked_size_cast`: `none` models the thrown
`std::length_error` when the host-sized length does not fit the 32-bit
size field. -/
def _checked_size_cast (n : Nat) : Option Nat :=
  if n > 2 ^ 32 - 1 then none else some n

/-- The `const char*` constructor: the length found by `strlen` (the
input list models the bytes before the terminator) goes through
`_checked_size_cast` before construction. -/
def from_c_str (s : List Nat) (cls : Nat) : Option (GS × Nat) :=
  match _checked_size_cast s.length with
  | none => none
  | some n => some (_gs_impl_mk (s.take n) cls)

/-- The `const std::string&` constructor: `str.size()` (a `size_t`) is
passed directly into the `size_type` (= `uint32_t`) parameter of the
delegated constructor, i.e. it is implicitly converted modulo `2^32`
with no `_checked_size_cast`; the value is then built from that many
leading bytes of the string's buffer, with class `temporary`. -/
def from_std_string (s : List Nat) : GS × Nat :=
  _gs_impl_mk (s.take (s.length % 2 ^ 32)) string_class.temporary

/-- Representability of a value in the 16-byte record: the size field
is a `uint32_t` and every payload entry is one byte. -/
def GS.Valid (g : GS) : Prop :=
  g._get_size < 2 ^ 32 ∧ ∀ b ∈ g.content, b < 256

instance (g : GS) : Decidable g.Valid := by
  unfold GS.Valid; infer_instance

/-- Byte-wise lexicographic three-way comparison of payloads, the
order the specification refers to: first differing byte decides, a
proper prefix sorts first. -/
def lexCmp : List Nat → List Nat → Ordering
  | [], [] => Ordering.eq
  | [], _ :: _ => Ordering.lt
  | _ :: _, [] => Ordering.gt
  | a :: as, b :: bs =>
    if a < b then Ordering.lt else if b < a then Ordering.gt else lexCmp as bs

/-! ## Helper lemmas -/

/-- Reading back the written length from the zero-padded inline buffer
returns the original payload. -/
lemma inline_readback (s : List Nat) (n : Nat) :
    (s ++ List.replicate n 0).take s.length = s :=
  List.take_left s (List.replicate n 0)

/-- The value constructed by `_gs_impl_mk` always represents exactly
the input byte sequence. -/
lemma _gs_impl_mk_content (s : List Nat) (cls : Nat) :
    (_gs_impl_mk s cls).1.content = s := by
  unfold _gs_impl_mk
  by_cases h : s.length ≤ SMALL_STRING_SIZE
  · simp [h, inline_readback]
  · by_cases hc : cls = string_class.temporary <;> simp [h, hc]

/-! ## Claim C4 -/

/-- Claim C4: for every byte sequence `s` with `len s ≤ 12` and every
requested class, construction stores `s` inline with zero allocations,
the constructed value's content decodes back to exactly `s`, and
`get_class` on it returns `persistent`. -/
theorem claim_C4_inline_construct (s : List Nat) (cls : Nat)
    (h : s.length ≤ 12) :
    (_gs_impl_mk s cls).2 = 0 ∧
    (_gs_impl_mk s cls).1.content = s ∧
    (_gs_impl_mk s cls).1._get_class = string_class.persistent := by
  have hsmall : s.length ≤ SMALL_STRING_SIZE := h
  refine ⟨?_, _gs_impl_mk_content s cls, ?_⟩
  · unfold _gs_impl_mk
    simp [hsmall]
  · unfold GS._get_class GS._is_small GS._get_size
    rw [_gs_impl_mk_content s cls]
    simp [hsmall]

/-- Witness for C4 at `s = [72, 105]`, `cls = temporary`. -/
theorem claim_C4_inline_construct_witness :
    ([72, 105] : List Nat).length ≤ 12 ∧
    (_gs_impl_mk [72, 105] string_class.temporary).2 = 0 ∧
    (_gs_impl_mk [72, 105] string_class.temporary).1.content = [72, 105] ∧
    (_gs_impl_mk [72, 105] string_class.temporary).1._get_class =
      string_class.persistent :=
  ⟨by decide, claim_C4_inline_construct [72, 105] string_class.temporary (by decide)⟩

/-! ## Claim C5 -/

/-- Claim C5: for every byte sequence longer than 12 bytes,
constructing with class `temporary` performs exactly one allocation
and destroying the result performs exactly one deallocation, while
constructing with class `persistent` or `transient` performs zero
allocations and destroying such values performs zero deallocations;
inline values never deallocate, and a value deallocates at all only
when it is large with the `temporary` tag. -/
theorem claim_C5_alloc_discipline (s : List Nat) (cls : Nat) (t : GS)
    (h : 12 < s.length) :
    (cls = string_class.temporary →
      (_gs_impl_mk s cls).2 = 1 ∧ _gs_impl_dtor (_gs_impl_mk s cls).1 = 1) ∧
    (cls = string_class.persistent ∨ cls = string_class.transient →
      (_gs_impl_mk s cls).2 = 0 ∧ _gs_impl_dtor (_gs_impl_mk s cls).1 = 0) ∧
    (t._is_small = true → _gs_impl_dtor t = 0) ∧
    (_gs_impl_dtor t = 1 ↔
      (¬ t._is_small = true ∧ t.tag = string_class.temporary)) := by
  have hns : ¬ s.length ≤ SMALL_STRING_SIZE := by
    unfold SMALL_STRING_SIZE; omega
  refine ⟨?_, ?_, ?_, ?_⟩
  · intro hc
    unfold _gs_impl_mk _gs_impl_dtor GS._is_small GS._get_size
    simp [hns, hc, string_class.temporary]
  · intro hc
    unfold _gs_impl_mk _gs_impl_dtor GS._is_small GS._get_size
    rcases hc with hc | hc <;>
      simp [hns, hc, string_class.temporary, string_class.persistent,
        string_class.transient]
  · intro hsm
    unfold _gs_impl_dtor
    simp [hsm]
  · unfold _gs_impl_dtor
    by_cases hsm : t._is_small = true
    · simp [hsm]
    · by_cases hc : t.tag = string_class.temporary <;> simp [hsm, hc]

/-- Witness for C5 at a 13-byte payload, class `temporary`, and the
inline value it also mentions. -/
theorem claim_C5_alloc_discipline_witness :
    12 < (List.replicate 13 65 : List Nat).length ∧
    ((string_class.temporary = string_class.temporary →
      (_gs_impl_mk (List.replicate 13 65) string_class.temporary).2 = 1 ∧
      _gs_impl_dtor (_gs_impl_mk (List.replicate 13 65) string_class.temporary).1 = 1) ∧
    (string_class.temporary = string_class.persistent ∨
        string_class.temporary = string_class.transient →
      (_gs_impl_mk (List.replicate 13 65) string_class.temporary).2 = 0 ∧
      _gs_impl_dtor (_gs_impl_mk (List.replicate 13 65) string_class.temporary).1 = 0) ∧
    ((⟨[7], 0⟩ : GS)._is_small = true → _gs_impl_dtor ⟨[7], 0⟩ = 0) ∧
    (_gs_impl_dtor ⟨[7], 0⟩ = 1 ↔
      (¬ (⟨[7], 0⟩ : GS)._is_small = true ∧
        (⟨[7], 0⟩ : GS).tag = string_class.temporary))) :=
  ⟨by decide,
    claim_C5_alloc_discipline (List.replicate 13 65) string_class.temporary
      ⟨[7], 0⟩ (by decide)⟩

/-! ## Claim C6 -/

/-- Claim C6: moving from a large-mode `temporary` value leaves the
moved-from value reporting class `transient` with a deallocation-free
destructor, while the moved-to value holds the same content, still
reports `temporary`, and frees exactly once when destroyed. -/
theorem claim_C6_move_ctor (g : GS)
    (hl : 12 < g._get_size) (ht : g.tag = string_class.temporary) :
    (move_ctor g).2._get_class = string_class.transient ∧
    _gs_impl_dtor (move_ctor g).2 = 0 ∧
    (move_ctor g).1.content = g.content ∧
    (move_ctor g).1._get_class = string_class.temporary ∧
    _gs_impl_dtor (move_ctor g).1 = 1 := by
  have hns : ¬ g._is_small = true := by
    unfold GS._is_small SMALL_STRING_SIZE
    simp
    omega
  have hcls : g._get_class = string_class.temporary := by
    unfold GS._get_class
    simp [hns, ht]
  have hmove : move_ctor g = (g, g._make_transient) := by
    unfold move_ctor
    simp [hcls]
  have htr : g._make_transient = ⟨g.content, 2⟩ := by
    unfold GS._make_transient
    rw [ht]
    rfl
  have hns2 : ¬ (⟨g.content, 2⟩ : GS)._is_small = true := hns
  rw [hmove, htr]
  refine ⟨?_, ?_, rfl, hcls, ?_⟩
  · unfold GS._get_class
    simp [hns2, string_class.transient]
  · unfold _gs_impl_dtor
    simp [hns2, string_class.temporary, string_class.transient]
  · unfold _gs_impl_dtor
    simp [hns, ht, string_class.temporary]

/-- Witness for C6 at a 13-byte `temporary` value. -/
theorem claim_C6_move_ctor_witness :
    12 < (⟨List.replicate 13 7, 0⟩ : GS)._get_size ∧
    ((move_ctor ⟨List.replicate 13 7, 0⟩).2._get_class = string_class.transient ∧
    _gs_impl_dtor (move_ctor ⟨List.replicate 13 7, 0⟩).2 = 0 ∧
    (move_ctor ⟨List.replicate 13 7, 0⟩).1.content = List.replicate 13 7 ∧
    (move_ctor ⟨List.replicate 13 7, 0⟩).1._get_class = string_class.temporary ∧
    _gs_impl_dtor (move_ctor ⟨List.replicate 13 7, 0⟩).1 = 1) :=
  ⟨by decide, claim_C6_move_ctor ⟨List.replicate 13 7, 0⟩ (by decide) rfl⟩

/-! ## Claim C10 -/

/-- Claim C10: after the move assignment `b = move(a)` (distinct
objects), `b` holds `a`'s former 16-byte record — and if that record
was a large-mode `temporary` one, destroying `b` frees exactly once —
while `a` is reset to the all-zero record: size 0, `empty`, class
`persistent`, and a deallocation-free destructor. -/
theorem claim_C10_move_assign (dst src : GS) :
    (move_assign dst src).1 = src ∧
    (12 < src._get_size → src.tag = string_class.temporary →
      _gs_impl_dtor (move_assign dst src).1 = 1) ∧
    (move_assign dst src).2.1._get_size = 0 ∧
    (move_assign dst src).2.1.empty = true ∧
    (move_assign dst src).2.1._get_class = string_class.persistent ∧
    _gs_impl_dtor (move_assign dst src).2.1 = 0 := by
  refine ⟨rfl, ?_, rfl, rfl, rfl, rfl⟩
  intro hl ht
  have hns : ¬ src._is_small = true := by
    unfold GS._is_small SMALL_STRING_SIZE
    simp
    omega
  show _gs_impl_dtor src = 1
  unfold _gs_impl_dtor
  simp [hns, ht, string_class.temporary]

/-- Witness for C10: a small destination and a 13-byte `temporary`
source, with the inner hypotheses discharged. -/
theorem claim_C10_move_assign_witness :
    (move_assign ⟨[5], 1⟩ ⟨List.replicate 13 9, 0⟩).1 = ⟨List.replicate 13 9, 0⟩ ∧
    _gs_impl_dtor (move_assign ⟨[5], 1⟩ ⟨List.replicate 13 9, 0⟩).1 = 1 ∧
    (move_assign ⟨[5], 1⟩ ⟨List.replicate 13 9, 0⟩).2.1._get_size = 0 ∧
    (move_assign ⟨[5], 1⟩ ⟨List.replicate 13 9, 0⟩).2.1.empty = true ∧
    (move_assign ⟨[5], 1⟩ ⟨List.replicate 13 9, 0⟩).2.1._get_class =
      string_class.persistent ∧
    _gs_impl_dtor (move_assign ⟨[5], 1⟩ ⟨List.replicate 13 9, 0⟩).2.1 = 0 := by
  have h := claim_C10_move_assign ⟨[5], 1⟩ ⟨List.replicate 13 9, 0⟩
  exact ⟨h.1, h.2.1 (by decide) rfl, h.2.2.1, h.2.2.2.1, h.2.2.2.2.1, h.2.2.2.2.2⟩

/-! ## Claim C9 -/

/-- Claim C9: `substr(a, 0, a.size)` (with the default requested class
`transient`, as in the public `substr`) succeeds and produces a value
with exactly `a`'s content. -/
theorem claim_C9_substr_identity (g : GS) (h : g._get_size < 2 ^ 32) :
    (_substr g 0 g._get_size string_class.transient).isSome = true ∧
    (_substr g 0 g._get_size string_class.transient).map (fun r => r.1.content) =
      some g.content := by
  have hmod : (0 + g._get_size) % 2 ^ 32 = g._get_size := by
    rw [Nat.zero_add]
    exact Nat.mod_eq_of_lt h
  have hcheck : ¬ (0 + g._get_size) % 2 ^ 32 > g._get_size := by
    rw [hmod]
    omega
  have htake : (g.content.drop 0).take g._get_size = g.content := by
    rw [List.drop_zero]
    exact List.take_length g.content
  unfold _substr
  rw [if_neg hcheck, htake]
  exact ⟨rfl, by simp [_gs_impl_mk_content]⟩

/-- Witness for C9 at a small concrete value (and the construction
path is also exercised by the proof for any large value). -/
theorem claim_C9_substr_identity_witness :
    (⟨[1, 2, 3], 2⟩ : GS)._get_size < 2 ^ 32 ∧
    ((_substr ⟨[1, 2, 3], 2⟩ 0 (⟨[1, 2, 3], 2⟩ : GS)._get_size
        string_class.transient).isSome = true ∧
      (_substr ⟨[1, 2, 3], 2⟩ 0 (⟨[1, 2, 3], 2⟩ : GS)._get_size
          string_class.transient).map (fun r => r.1.content) = some [1, 2, 3]) :=
  ⟨by decide, claim_C9_substr_identity ⟨[1, 2, 3], 2⟩ (by decide)⟩

/-! ## Claim C7 -/

/-- Claim C7 (failing input): on the empty string, a substring request
with `start = 2^32 - 1` and `length = 1` has exact `start + length =
2^32 > 0 = size`, so per the claim it must fail with an out-of-range
error; but the bounds check adds the two `uint32_t` values modulo
`2^32`, the sum wraps to 0, and the call succeeds. -/
theorem claim_C7_substr_overflow_check :
    (_substr ⟨[], 1⟩ (2 ^ 32 - 1) 1 string_class.transient).isSome = true ∧
    2 ^ 32 - 1 + 1 > (⟨[], 1⟩ : GS)._get_size := by
  constructor
  · decide
  · decide

/-! ## Claim C8 -/

/-- Claim C8 (failing input): construction from a `std::string` of
`2^32` bytes does not fail with a length error — `str.size()` is
implicitly converted to the 32-bit `size_type` parameter, truncating
the size modulo `2^32`: the resulting value silently has size 0
although the requested size exceeds the 32-bit maximum. -/
theorem claim_C8_std_string_truncation :
    (from_std_string (List.replicate (2 ^ 32) 72)).1._get_size = 0 ∧
    (List.replicate (2 ^ 32) (72 : Nat)).length = 2 ^ 32 ∧
    2 ^ 32 > 2 ^ 32 - 1 := by
  refine ⟨?_, by rw [List.length_replicate], by norm_num⟩
  unfold from_std_string
  have h1 : (List.replicate (2 ^ 32) (72 : Nat)).length % 2 ^ 32 = 0 := by
    rw [List.length_replicate, Nat.mod_self]
  rw [h1, List.take_zero]
  decide

/-! ## Claim C3 -/

/-- Claim C3 (failing input): `a = [97, 98]` starts with `b = [97]`
(so the claim requires `true`), but `_starts_with` compares the whole
4-byte prefix fields — `[97, 98, 0, 0]` against `[97, 0, 0, 0]` — and
returns `false`. -/
theorem claim_C3_starts_with_short_needle :
    _starts_with ⟨[97, 98], 1⟩ ⟨[97], 1⟩ = false ∧
    (⟨[97], 1⟩ : GS)._get_size ≤ (⟨[97, 98], 1⟩ : GS)._get_size ∧
    ([97, 98] : List Nat).take (⟨[97], 1⟩ : GS)._get_size = [97] := by
  decide

/-- `memcmp` over zero bytes always returns 0. -/
lemma memcmp_zero (l1 l2 : List Nat) : memcmp l1 l2 0 = 0 := by
  simp [memcmp]

/-- `_compare` against the empty value degenerates to the converted
unsigned difference of the size fields. -/
lemma compare_right_nil (a : GS) :
    GS._compare a ⟨[], 1⟩ = toInt32 (sub_u32 a._get_size 0) := by
  unfold GS._compare
  simp [GS._get_size, memcmp_zero]

/-- Symmetric version of `compare_right_nil`. -/
lemma compare_left_nil (b : GS) :
    GS._compare ⟨[], 1⟩ b = toInt32 (sub_u32 0 b._get_size) := by
  unfold GS._compare
  simp [GS._get_size, memcmp_zero]

/-! ## Claim C1 -/

/-- Claim C1 (failing input): for `a` of `2^31` bytes and `b` empty,
`b` is a proper prefix of `a`, so the claim requires
`compare(a, b) > 0`; but the tie-break returns the unsigned 32-bit
size difference converted to `int`, which is `-2^31` here.  Both
`compare(a, b)` and `compare(b, a)` are negative, which also breaks
asymmetry, so the induced relation is not a strict weak ordering. -/
theorem claim_C1_compare_sign_overflow :
    GS._compare ⟨List.replicate (2 ^ 31) 65, 1⟩ ⟨[], 1⟩ < 0 ∧
    GS._compare ⟨[], 1⟩ ⟨List.replicate (2 ^ 31) 65, 1⟩ < 0 ∧
    lexCmp (List.replicate (2 ^ 31) 65) [] = Ordering.gt := by
  have h1 := compare_right_nil ⟨List.replicate (2 ^ 31) 65, 1⟩
  have h2 := compare_left_nil ⟨List.replicate (2 ^ 31) 65, 1⟩
  have hlen : (⟨List.replicate (2 ^ 31) 65, 1⟩ : GS)._get_size = 2 ^ 31 := by
    show (List.replicate (2 ^ 31) (65 : Nat)).length = 2 ^ 31
    rw [List.length_replicate]
  rw [hlen] at h1 h2
  refine ⟨?_, ?_, ?_⟩
  · rw [h1]
    decide
  · rw [h2]
    decide
  · show lexCmp (List.replicate (2 ^ 31) 65) [] = Ordering.gt
    rw [(by norm_num : (2 ^ 31 : Nat) = 2 ^ 31 - 1 + 1), List.replicate_succ]
    rfl

/-! ## Claim C2: helper lemmas -/

/-- `leBytes` is injective on equal-length lists of byte values. -/
lemma leBytes_inj : ∀ {l1 l2 : List Nat}, l1.length = l2.length →
    (∀ b ∈ l1, b < 256) → (∀ b ∈ l2, b < 256) →
    leBytes l1 = leBytes l2 → l1 = l2 := by
  intro l1
  induction l1 with
  | nil =>
    intro l2 hlen _ _ _
    cases l2 with
    | nil => rfl
    | cons y ys => simp at hlen
  | cons x xs ih =>
    intro l2 hlen h1 h2 heq
    cases l2 with
    | nil => simp at hlen
    | cons y ys =>
      have hx : x < 256 := h1 x (List.mem_cons_self x xs)
      have hy : y < 256 := h2 y (List.mem_cons_self y ys)
      unfold leBytes at heq
      have hxy : x = y ∧ leBytes xs = leBytes ys := by omega
      have hrest := ih (by simpa using hlen)
        (fun c hc => h1 c (List.mem_cons_of_mem _ hc))
        (fun c hc => h2 c (List.mem_cons_of_mem _ hc)) hxy.2
      rw [hxy.1, hrest]

/-- `memcmp` of a list against itself is 0. -/
lemma memcmp_self : ∀ (l : List Nat) (n : Nat), memcmp l l n = 0 := by
  intro l
  induction l with
  | nil =>
    intro n
    cases n <;> simp [memcmp]
  | cons x xs ih =>
    intro n
    cases n with
    | zero => simp [memcmp]
    | succ m => simp [memcmp, ih]

/-- For equal-length lists, `memcmp` returns 0 exactly when the first
`n` entries agree. -/
lemma memcmp_eq_zero_iff : ∀ (l1 l2 : List Nat) (n : Nat), l1.length = l2.length →
    (memcmp l1 l2 n = 0 ↔ l1.take n = l2.take n) := by
  intro l1
  induction l1 with
  | nil =>
    intro l2 n hlen
    cases l2 with
    | nil => cases n <;> simp [memcmp]
    | cons y ys => simp at hlen
  | cons x xs ih =>
    intro l2 n hlen
    cases l2 with
    | nil => simp at hlen
    | cons y ys =>
      cases n with
      | zero => simp [memcmp_zero]
      | succ m =>
        by_cases hxy : x = y
        · subst hxy
          simp only [memcmp, if_pos rfl, List.take_succ_cons, List.cons.injEq,
            true_and]
          exact ih ys m (by simpa using hlen)
        · have hxy' : ((x : Int) - (y : Int) = 0) ↔ False := by
            constructor
            · intro h
              exact hxy (by exact_mod_cast sub_eq_zero.mp h)
            · intro h
              exact h.elim
          simp [memcmp, hxy, hxy']

/-- Entries of a zero-padded, truncated byte list stay below 256. -/
lemma padded_mem_lt (l : List Nat) (pad n : Nat) (h : ∀ x ∈ l, x < 256) :
    ∀ x ∈ (l ++ List.replicate pad 0).take n, x < 256 := by
  intro x hx
  rcases List.mem_append.mp (List.mem_of_mem_take hx) with h1 | h2
  · exact h x h1
  · have h0 := List.eq_of_mem_replicate h2
    omega

/-- The cached prefix field is always 4 bytes long. -/
lemma prefixBytes_length (g : GS) : (GS.prefixBytes g).length = 4 := by
  unfold GS.prefixBytes
  rw [List.length_take, List.length_append, List.length_replicate]
  omega

/-- The raw word `_state[0]` determines, and is determined by, the
size field and the prefix field. -/
lemma _state0_eq_iff (a b : GS)
    (ha1 : a._get_size < 2 ^ 32) (hb1 : b._get_size < 2 ^ 32)
    (ha2 : ∀ x ∈ a.content, x < 256) (hb2 : ∀ x ∈ b.content, x < 256) :
    a._state0 = b._state0 ↔
      (a._get_size = b._get_size ∧ GS.prefixBytes a = GS.prefixBytes b) := by
  constructor
  · intro h
    unfold GS._state0 at h
    have hsplit : a._get_size = b._get_size ∧
        a._get_prefix_u32 = b._get_prefix_u32 := by omega
    refine ⟨hsplit.1, ?_⟩
    exact leBytes_inj (by rw [prefixBytes_length, prefixBytes_length])
      (padded_mem_lt a.content 4 4 ha2) (padded_mem_lt b.content 4 4 hb2)
      hsplit.2
  · intro h
    unfold GS._state0 GS._get_prefix_u32
    rw [h.1, h.2]

/-- Taking back a list's length from its zero-padded 4-byte truncation
recovers the first 4 entries. -/
lemma take4_padded (l : List Nat) :
    ((l ++ List.replicate 4 0).take 4).take l.length = l.take 4 := by
  rw [List.take_take, List.take_append_eq_append_take]
  have h0 : min l.length 4 - l.length = 0 := by omega
  rw [h0, List.take_zero, List.append_nil]
  by_cases h : l.length ≤ 4
  · rw [Nat.min_eq_left h, List.take_length, List.take_of_length_le h]
  · rw [Nat.min_eq_right (by omega)]

/-- Equal prefix fields of equal-size values mean equal leading 4
payload bytes. -/
lemma content_take4_eq (a b : GS) (hs : a.content.length = b.content.length)
    (hp : GS.prefixBytes a = GS.prefixBytes b) :
    a.content.take 4 = b.content.take 4 := by
  rw [← take4_padded a.content, ← take4_padded b.content]
  have hpa : (a.content ++ List.replicate 4 0).take 4 =
      (b.content ++ List.replicate 4 0).take 4 := hp
  rw [hpa, hs]

/-- Taking back the length of `l.drop 4` from the zero-padded 8-byte
inline tail recovers `l.drop 4` (inline values: `l.length ≤ 12`). -/
lemma drop4_padded (l : List Nat) (h : l.length ≤ 12) :
    ((l.drop 4 ++ List.replicate 8 0).take 8).take (l.drop 4).length =
      l.drop 4 := by
  rw [List.take_take, List.take_append_eq_append_take]
  have hlen : (l.drop 4).length ≤ 8 := by
    rw [List.length_drop]
    omega
  rw [Nat.min_eq_left hlen, Nat.sub_self, List.take_zero, List.append_nil,
    List.take_length]

/-- For two inline values of equal size, equal raw `_state[1]` words
mean equal payload tails from offset 4. -/
lemma state1_drop4 (a b : GS) (hs : a.content.length = b.content.length)
    (hsa : a.content.length ≤ 12)
    (ha2 : ∀ x ∈ a.content, x < 256) (hb2 : ∀ x ∈ b.content, x < 256)
    (h : a._state1_inline = b._state1_inline) :
    a.content.drop 4 = b.content.drop 4 := by
  unfold GS._state1_inline at h
  have hlena : ((a.content.drop 4 ++ List.replicate 8 0).take 8).length = 8 := by
    rw [List.length_take, List.length_append, List.length_replicate]
    omega
  have hlenb : ((b.content.drop 4 ++ List.replicate 8 0).take 8).length = 8 := by
    rw [List.length_take, List.length_append, List.length_replicate]
    omega
  have hpad := leBytes_inj (hlena.trans hlenb.symm)
    (padded_mem_lt (a.content.drop 4) 8 8
      (fun x hx => ha2 x (List.mem_of_mem_drop hx)))
    (padded_mem_lt (b.content.drop 4) 8 8
      (fun x hx => hb2 x (List.mem_of_mem_drop hx)))
    h
  have hdl : (a.content.drop 4).length = (b.content.drop 4).length := by
    rw [List.length_drop, List.length_drop, hs]
  rw [← drop4_padded a.content hsa, ← drop4_padded b.content (hs ▸ hsa),
    hpad, hdl]

/-! ## Claim C2 -/

/-- Claim C2: for all representable values (any classes, any storage
strategy — in particular two separately stored `temporary` copies of
the same bytes), `_equals` returns `true` exactly when the sizes agree
and the payload bytes are identical. -/
theorem claim_C2_equals_iff (a b : GS) (ha : a.Valid) (hb : b.Valid) :
    GS._equals a b = true ↔
      (a._get_size = b._get_size ∧ a.content = b.content) := by
  obtain ⟨ha1, ha2⟩ := ha
  obtain ⟨hb1, hb2⟩ := hb
  unfold GS._equals
  by_cases h0 : a._state0 = b._state0
  · obtain ⟨hs, hp⟩ := (_state0_eq_iff a b ha1 hb1 ha2 hb2).mp h0
    have hs' : a.content.length = b.content.length := hs
    rw [if_neg (not_not.mpr h0)]
    by_cases hsm : a._is_small = true
    · rw [if_pos hsm]
      have hsmall : a.content.length ≤ 12 := by
        have h12 := of_decide_eq_true hsm
        unfold SMALL_STRING_SIZE at h12
        exact h12
      constructor
      · intro h1
        have h1' : a._state1_inline = b._state1_inline := by
          simpa using h1
        have hdrop := state1_drop4 a b hs' hsmall ha2 hb2 h1'
        have htake := content_take4_eq a b hs' hp
        refine ⟨hs, ?_⟩
        calc a.content
            = a.content.take 4 ++ a.content.drop 4 :=
              (List.take_append_drop 4 a.content).symm
          _ = b.content.take 4 ++ b.content.drop 4 := by rw [htake, hdrop]
          _ = b.content := List.take_append_drop 4 b.content
      · intro h
        have h1 : a._state1_inline = b._state1_inline := by
          unfold GS._state1_inline
          rw [h.2]
        simp [h1]
    · rw [if_neg hsm]
      constructor
      · intro h1
        have h1' : memcmp a.content b.content a._get_size = 0 := by
          simpa using h1
        have htk := (memcmp_eq_zero_iff a.content b.content a._get_size hs').mp h1'
        refine ⟨hs, ?_⟩
        rwa [show a._get_size = a.content.length from rfl, List.take_length,
          hs', List.take_length] at htk
      · intro h
        have h1 : memcmp a.content b.content a._get_size = 0 := by
          rw [h.2]
          exact memcmp_self b.content a._get_size
        simp [h1]
  · rw [if_pos h0]
    constructor
    · intro h
      exact absurd h (by simp)
    · intro h
      exfalso
      apply h0
      unfold GS._state0 GS._get_prefix_u32 GS.prefixBytes GS._get_size
      rw [h.2]

/-- Witness for C2: two equal-content inline values with different
(unused) tag fields compare equal. -/
theorem claim_C2_equals_iff_witness :
    (⟨[1, 2, 3], 0⟩ : GS).Valid ∧ (⟨[1, 2, 3], 2⟩ : GS).Valid ∧
    GS._equals ⟨[1, 2, 3], 0⟩ ⟨[1, 2, 3], 2⟩ = true :=
  ⟨by decide, by decide,
    (claim_C2_equals_iff ⟨[1, 2, 3], 0⟩ ⟨[1, 2, 3], 2⟩ (by decide)
      (by decide)).mpr ⟨rfl, rfl⟩⟩

end gs
